import Mathlib

/-!
Shallow embedding of the quantitative core of the `fundingscope` repository
(crypto perpetual-futures funding / liquidation analyzer), together with
proofs settling the frozen claims about it.

Conventions of the embedding:
* JavaScript `number` arithmetic is modelled by exact rational arithmetic (`ℚ`),
  except where a claim's meaning depends on IEEE special values (division by
  zero producing `Infinity`/`NaN`): there an explicit extended-value type is
  used that mirrors the JavaScript semantics of `/` on those inputs.
* The scenario catalog's transcendental modifiers (`Math.sin`, `Math.pow`) are
  abstracted: the projection pipeline and the spot comparator are parametrised
  over the scenario's `priceModifier`/`fundingModifier` functions, so theorems
  quantify over every possible modifier.  The one scenario formula a claim is
  about (Exponential Pump's power form) is embedded over `ℝ` with `Real.rpow`.
* The module-level memoization `Map` of `calculateFundingImpact`
  (`liquidationCache`) is keyed by the tuple
  `positionSize-fundingRate-leverage-initialMargin-currentPrice-isLong`;
  a call reads and writes only its own key, so the embedding passes the
  cache entry for the call's key explicitly (`cached : Option ℕ`,
  `none` = key absent) and models a call's effect on that entry
  (`cacheAfter`); entries of other keys are untouched by the source code.
-/

namespace LiquidationUtils

/-- `LiquidationDetails` record from `src/utils/liquidationUtils.ts`. -/
structure LiquidationDetails where
  liquidationPrice : ℚ
  liquidationDistance : ℚ
  liquidationDistancePercent : ℚ
  initialMarginRequired : ℚ
  maintenanceMarginRequired : ℚ
deriving DecidableEq

/-- Embeds `calculateLiquidationDetails` from `src/utils/liquidationUtils.ts`:
`liquidationDistancePercent = 100 / leverage`,
`liquidationDistance = currentPrice * (liquidationDistancePercent / 100)`,
`liquidationPrice = isLong ? currentPrice - d : currentPrice + d`,
`initialMarginRequired = positionSize / leverage`,
`maintenanceMarginRequired = leverage === 1 ? 0 : initialMarginRequired * 0.5`. -/
def calculateLiquidationDetails (currentPrice leverage positionSize : ℚ)
    (isLong : Bool) : LiquidationDetails :=
  let liquidationDistancePercent := 100 / leverage
  let liquidationDistance := currentPrice * (liquidationDistancePercent / 100)
  let liquidationPrice :=
    if isLong then currentPrice - liquidationDistance
    else currentPrice + liquidationDistance
  let initialMarginRequired := positionSize / leverage
  let maintenanceMarginRequired :=
    if leverage = 1 then 0 else initialMarginRequired * (1 / 2)
  { liquidationPrice := liquidationPrice
    liquidationDistance := liquidationDistance
    liquidationDistancePercent := liquidationDistancePercent
    initialMarginRequired := initialMarginRequired
    maintenanceMarginRequired := maintenanceMarginRequired }

end LiquidationUtils

namespace FundingImpact

/-- The `calculations` sub-record of `FundingRateImpact`
(`src/utils/binanceApi.ts`). -/
structure Calculations where
  fundingPerPeriod : ℚ
  totalFundingFees : ℚ
  maintenanceMargin : ℚ
  marginBuffer : ℚ
deriving DecidableEq

/-- The `FundingRateImpact` record returned by `calculateFundingImpact`
(`src/utils/binanceApi.ts`).  `liquidationPeriod : Option ℕ` models the
optional (possibly `undefined`) field. -/
structure FundingRateImpact where
  fundingFees : ℚ
  effectiveMargin : ℚ
  liquidationRisk : ℚ
  isLiquidated : Bool
  liquidationPeriod : Option ℕ
  liquidationDetails : LiquidationUtils.LiquidationDetails
  calculations : Calculations
deriving DecidableEq

/-- State of the `for` loop of `calculateFundingImpact` when it exits:
accumulated `totalFundingFees`, the current value of the `effectiveMargin`
variable, and `some i` when the loop hit the `break` at iteration `i`
(the liquidation check), `none` when it ran to completion. -/
structure LoopResult where
  totalFundingFees : ℚ
  effectiveMargin : ℚ
  liqAt : Option ℕ
deriving DecidableEq

/-- The body of the accrual loop of `calculateFundingImpact`
(`src/utils/binanceApi.ts`, lines 146-164), iterated `fuel` more times
starting at loop counter `i` with current `totalFundingFees = fees`,
`currentPositionSize = cur` and `effectiveMargin = eff`:
each iteration computes `fundingPerPeriod = cur * (fundingRate / 100)`,
re-assigns `effectiveMargin = initialMargin - totalFundingFees`, breaks when
`effectiveMargin <= maintenanceMarginRequired`, and otherwise accumulates the
fee and shrinks the position size by `effectiveMargin / initialMargin`. -/
def go (ps fr im mm : ℚ) : ℕ → ℕ → ℚ → ℚ → ℚ → LoopResult
  | 0, _, fees, _, eff => ⟨fees, eff, none⟩
  | fuel + 1, i, fees, cur, _ =>
    let effNew := im - fees
    if effNew ≤ mm then ⟨fees, effNew, some i⟩
    else go ps fr im mm fuel (i + 1) (fees + cur * (fr / 100)) (ps * (effNew / im)) effNew

/-- The pair `(totalFundingFees, currentPositionSize)` after `n` iterations of
the accrual loop, ignoring the liquidation break (the pure accrual
recurrence of `calculateFundingImpact`). -/
def accState (ps fr im : ℚ) : ℕ → ℚ × ℚ
  | 0 => (0, ps)
  | n + 1 =>
    let s := accState ps fr im n
    (s.1 + s.2 * (fr / 100), ps * ((im - s.1) / im))

/-- Accumulated funding fees before iteration `n` of the accrual loop. -/
def feesAcc (ps fr im : ℚ) (n : ℕ) : ℚ := (accState ps fr im n).1

/-- `currentPositionSize` entering iteration `n` of the accrual loop. -/
def curAcc (ps fr im : ℚ) (n : ℕ) : ℚ := (accState ps fr im n).2

/-- The liquidation test performed at iteration `i` of the accrual loop:
`effectiveMargin <= maintenanceMarginRequired`, where at iteration `i`
`effectiveMargin = initialMargin - feesAcc i`. -/
def cond (ps fr im mm : ℚ) (i : ℕ) : Prop := im - feesAcc ps fr im i ≤ mm

instance (ps fr im mm : ℚ) (i : ℕ) : Decidable (cond ps fr im mm i) :=
  inferInstanceAs (Decidable (im - feesAcc ps fr im i ≤ mm))

/-- Maintenance margin used by `calculateFundingImpact`: the
`maintenanceMarginRequired` of the `LiquidationDetails` it computes first. -/
def mmOf (currentPrice leverage positionSize : ℚ) (isLong : Bool) : ℚ :=
  (LiquidationUtils.calculateLiquidationDetails currentPrice leverage positionSize
    isLong).maintenanceMarginRequired

/-- `periodsToCalculate` of `calculateFundingImpact`
(`src/utils/binanceApi.ts`, line 144):
`liquidationPeriod ? Math.min(periods, liquidationPeriod) : periods`.
The JavaScript truthiness test makes a cached value of `0` behave like an
absent one. -/
def periodsToCalculate (periods : ℕ) (cached : Option ℕ) : ℕ :=
  match cached with
  | some k => if k = 0 then periods else min periods k
  | none => periods

/-- The accrual loop of `calculateFundingImpact` as actually run: starting
state `totalFundingFees = 0`, `currentPositionSize = positionSize`,
`effectiveMargin = initialMargin`, for `periodsToCalculate` iterations. -/
def loopOf (ps fr : ℚ) (periods : ℕ) (lev im cp : ℚ) (isLong : Bool)
    (cached : Option ℕ) : LoopResult :=
  go ps fr im (mmOf cp lev ps isLong) (periodsToCalculate periods cached) 0 0 ps im

/-- Value of the `liquidationPeriod` local variable after the loop: the cache
lookup result, overwritten by the break index when the loop broke. -/
def lpOf (ps fr : ℚ) (periods : ℕ) (lev im cp : ℚ) (isLong : Bool)
    (cached : Option ℕ) : Option ℕ :=
  match (loopOf ps fr periods lev im cp isLong cached).liqAt with
  | some i => some i
  | none => cached

/-- The post-loop override test of `calculateFundingImpact`
(`src/utils/binanceApi.ts`, line 167):
`if (liquidationPeriod && periods > liquidationPeriod)` — JavaScript
truthiness again makes `liquidationPeriod = 0` fail the test. -/
def overrideB (periods : ℕ) (lp : Option ℕ) : Bool :=
  match lp with
  | some k => decide (k ≠ 0) && decide (k < periods)
  | none => false

/-- The `liquidationRisk` expression of `calculateFundingImpact`
(`src/utils/binanceApi.ts`, lines 188-190), with `marginBuffer = eff - mm`. -/
def riskScore (isLiq : Bool) (leverage im eff mm : ℚ) : ℚ :=
  if isLiq then 100
  else if leverage = 1 then max 0 (min 100 (((im - eff) / im) * 100))
  else max 0 (min 100 ((1 - (eff - mm) / im) * 100))

/-- Embeds `calculateFundingImpact` from `src/utils/binanceApi.ts`
(lines 111-215).  `cached` is the `liquidationCache` entry for this call's
key (`none` when absent).  Console logging is omitted. -/
def calculateFundingImpact (positionSize fundingRate : ℚ) (periods : ℕ)
    (leverage initialMargin currentPrice : ℚ) (isLong : Bool)
    (cached : Option ℕ) : FundingRateImpact :=
  let liquidationDetails :=
    LiquidationUtils.calculateLiquidationDetails currentPrice leverage positionSize isLong
  let loop := loopOf positionSize fundingRate periods leverage initialMargin
    currentPrice isLong cached
  let lp := lpOf positionSize fundingRate periods leverage initialMargin
    currentPrice isLong cached
  let ov := overrideB periods lp
  let isLiquidated := loop.liqAt.isSome || ov
  let totalFundingFees := if ov then initialMargin else loop.totalFundingFees
  let effectiveMargin := if ov then 0 else loop.effectiveMargin
  { fundingFees := totalFundingFees
    effectiveMargin := max 0 effectiveMargin
    liquidationRisk := riskScore isLiquidated leverage initialMargin effectiveMargin
      liquidationDetails.maintenanceMarginRequired
    isLiquidated := isLiquidated
    liquidationPeriod := if isLiquidated then lp else none
    liquidationDetails := liquidationDetails
    calculations :=
      { fundingPerPeriod := positionSize * (fundingRate / 100)
        totalFundingFees := totalFundingFees
        maintenanceMargin := liquidationDetails.maintenanceMarginRequired
        marginBuffer := effectiveMargin - liquidationDetails.maintenanceMarginRequired } }

/-- Effect of one `calculateFundingImpact` call on the `liquidationCache`
entry for its key: the loop writes its break index (`liquidationCache.set`,
line 155) and otherwise leaves the entry unchanged. -/
def cacheAfter (ps fr lev im cp : ℚ) (isLong : Bool) (periods : ℕ)
    (c : Option ℕ) : Option ℕ :=
  match (loopOf ps fr periods lev im cp isLong c).liqAt with
  | some k => some k
  | none => c

/-- Cache states for a key reachable from the empty cache by any sequence of
`calculateFundingImpact` calls with that key (each call may use any period
count, since the key omits the period count). -/
inductive CacheReachable (ps fr lev im cp : ℚ) (isLong : Bool) : Option ℕ → Prop
  | init : CacheReachable ps fr lev im cp isLong none
  | step (periods : ℕ) (c : Option ℕ) :
      CacheReachable ps fr lev im cp isLong c →
      CacheReachable ps fr lev im cp isLong (cacheAfter ps fr lev im cp isLong periods c)

end FundingImpact

namespace Chart

/-- The `TradingParams` fields consumed by the chart's data memo
(`src/components/InputForm.tsx` interface; `selectedToken` is presentation
only and omitted). -/
structure TradingParams where
  initialInvestment : ℚ
  leverage : ℚ
  targetPrice : ℚ
  timeHorizon : ℕ
  fundingRate : ℚ
  currentPrice : ℚ
deriving DecidableEq

/-- Margin-warning tier of a projection point
(`src/components/ProfitLossChart.tsx`, `marginWarningLevel`). -/
inductive MarginWarning where
  | safe : MarginWarning
  | warning : MarginWarning
  | danger : MarginWarning
deriving DecidableEq

/-- One `ChartDataPoint` of the projection pipeline
(`src/components/ProfitLossChart.tsx`).  Values are the exact computed ones:
the source additionally rounds them with `toFixed` for display, a
presentation step not modelled here.  The terminal liquidation point carries
no `marginWarning` (the source omits the field there), hence the `Option`. -/
structure ChartDataPoint where
  day : ℕ
  rawPnL : ℚ
  fundingFees : ℚ
  fundingRate : ℚ
  totalPnL : ℚ
  price : ℚ
  pnlPercent : ℚ
  liquidationRisk : ℚ
  effectiveMargin : ℚ
  isLiquidated : Bool
  marginWarning : Option MarginWarning
deriving DecidableEq

/-- The `Linear` scenario's `priceModifier`
(`src/components/ProfitLossChart.tsx`): `baseReturn * day`. -/
def linearPriceModifier (day : ℕ) (baseReturn : ℚ) : ℚ := baseReturn * day

/-- The `Linear` scenario's `fundingModifier`: the base funding unchanged. -/
def linearFundingModifier (_day : ℕ) (baseFunding : ℚ) (_priceChange : ℚ) : ℚ :=
  baseFunding

/-- Embeds the per-day computation of the chart's `data` memo
(`src/components/ProfitLossChart.tsx`, lines 136-207), parametrised over the
selected scenario's `priceModifier` and `fundingModifier`.  The funding
engine is `calculateFundingImpact` (the claims' cited implementation,
`src/utils/binanceApi.ts`); its memoization cache entry is passed as
`cached`.  The source's final `filter` downsampling is presentation only. -/
def chartPoint (params : TradingParams) (priceModifier : ℕ → ℚ → ℚ)
    (fundingModifier : ℕ → ℚ → ℚ → ℚ) (cached : Option ℕ) (day : ℕ) :
    ChartDataPoint :=
  let expectedReturnPerc := (params.targetPrice - params.currentPrice) / params.currentPrice
  let baseDailyReturnPerc := expectedReturnPerc / (params.timeHorizon : ℚ)
  let modifiedDailyReturn := priceModifier day baseDailyReturnPerc
  let priceAtDay := params.currentPrice * (1 + modifiedDailyReturn)
  let priceChangePerc := (priceAtDay - params.currentPrice) / params.currentPrice
  let fundingPeriodsPerDay := 3
  let totalFundingPeriods := day * fundingPeriodsPerDay
  let modifiedFundingRate := fundingModifier day params.fundingRate priceChangePerc
  let positionSize := params.initialInvestment * params.leverage
  let rawPnL := positionSize * priceChangePerc
  let fundingImpact := FundingImpact.calculateFundingImpact positionSize
    modifiedFundingRate totalFundingPeriods params.leverage
    params.initialInvestment priceAtDay true cached
  let terminal :=
    fundingImpact.isLiquidated &&
      match fundingImpact.liquidationPeriod with
      | some lp => decide (lp / fundingPeriodsPerDay ≤ day)
      | none => false
  if terminal then
    { day := day
      rawPnL := -params.initialInvestment
      fundingFees := params.initialInvestment
      fundingRate := 0
      totalPnL := -params.initialInvestment
      price := priceAtDay
      pnlPercent := -100
      liquidationRisk := 100
      effectiveMargin := 0
      isLiquidated := true
      marginWarning := none }
  else
    let effectivePositionSize :=
      positionSize * (fundingImpact.effectiveMargin / params.initialInvestment)
    let adjustedPriceChangePerc := (priceAtDay - params.currentPrice) / params.currentPrice
    let totalPnL := effectivePositionSize * adjustedPriceChangePerc - fundingImpact.fundingFees
    let pnlPercent := totalPnL / params.initialInvestment * 100
    let marginWarningLevel : MarginWarning :=
      if 80 < fundingImpact.liquidationRisk then .danger
      else if 60 < fundingImpact.liquidationRisk then .warning
      else .safe
    { day := day
      rawPnL := rawPnL
      fundingFees := fundingImpact.fundingFees
      fundingRate := modifiedFundingRate
      totalPnL := totalPnL
      price := priceAtDay
      pnlPercent := pnlPercent
      liquidationRisk := fundingImpact.liquidationRisk
      effectiveMargin := fundingImpact.effectiveMargin
      isLiquidated := false
      marginWarning := some marginWarningLevel }

end Chart

namespace SpotCompare

/-- Result of a JavaScript floating-point division, keeping the IEEE special
values produced when the divisor is zero: `0/0 = NaN`, `x/0 = ±Infinity`. -/
inductive JsNum where
  | num : ℚ → JsNum
  | posInf : JsNum
  | negInf : JsNum
  | nan : JsNum
deriving DecidableEq

/-- JavaScript division `a / b` of finite values. -/
def jsDiv (a b : ℚ) : JsNum :=
  if b = 0 then (if a = 0 then .nan else if 0 < a then .posInf else .negInf)
  else .num (a / b)

/-- JavaScript comparison `x > c` of a division result against a finite
constant: comparisons with `NaN` are false, `Infinity > c` is true. -/
def jsGt (x : JsNum) (c : ℚ) : Bool :=
  match x with
  | .num q => decide (c < q)
  | .posInf => true
  | .negInf => false
  | .nan => false

/-- Return record of the local stub `calculateLiquidationDetails` in
`src/utils/spotCompareUtils.ts` (only the two destructured fields). -/
structure StubLiquidationDetails where
  liquidationDistancePercent : ℚ
  maintenanceMarginRequired : ℚ
deriving DecidableEq

/-- Embeds the local helper `calculateLiquidationDetails` of
`src/utils/spotCompareUtils.ts` (lines 95-98): a stub that ignores all
arguments and returns zeros (`// TO DO: implement liquidation details
calculation`). -/
def calculateLiquidationDetails (_currentPrice _leverage _positionSize : ℚ)
    (_isLong : Bool) : StubLiquidationDetails :=
  { liquidationDistancePercent := 0, maintenanceMarginRequired := 0 }

/-- `SpotComparisonParams` from `src/utils/spotCompareUtils.ts`; the selected
scenario is represented by the `priceModifier` / risk-multiplier arguments of
`calculateSpotComparison`. -/
structure SpotComparisonParams where
  initialInvestment : ℚ
  currentPrice : ℚ
  targetPrice : ℚ
  leverage : ℚ
  fundingFees : ℚ
  timeHorizon : ℕ
  isLong : Bool
deriving DecidableEq

/-- `SpotComparisonResult` from `src/utils/spotCompareUtils.ts`.
`leverageMultiplier = leveragedPnL / spotPnL` is an unguarded division in the
source, so it is kept as a `JsNum`.  The Sharpe-like ratio fields use total
rational division (their divisors are nonzero for the meaningful inputs and
no claim is about them). -/
structure SpotComparisonResult where
  spotPnL : ℚ
  leveragedPnL : ℚ
  spotReturn : ℚ
  leveragedReturn : ℚ
  spotSharpe : ℚ
  leverageSharpe : ℚ
  isFundingSignificant : Bool
  isLeverageWorthIt : Bool
  leverageMultiplier : JsNum
  fundingDragPercent : ℚ
  scenarioAdjustedRisk : ℚ
  liquidationRisk : ℚ
  marginBuffer : ℚ
deriving DecidableEq

/-- Embeds `calculateSpotComparison` from `src/utils/spotCompareUtils.ts`
(lines 100-172), parametrised over the selected scenario's `priceModifier`
and its `getScenarioRiskMultiplier` value.  `fundingToPnLRatio`
(`fundingFees / Math.abs(leveragedPnL)`) is an unguarded division, kept as a
`JsNum` so that the `NaN`/`Infinity` it produces at `leveragedPnL = 0` is
represented. -/
def calculateSpotComparison (priceModifier : ℕ → ℚ → ℚ) (riskMultiplier : ℚ)
    (params : SpotComparisonParams) : SpotComparisonResult :=
  let expectedReturnPerc := (params.targetPrice - params.currentPrice) / params.currentPrice
  let baseDailyReturnPerc := expectedReturnPerc / (params.timeHorizon : ℚ)
  let finalDayPriceMove := priceModifier params.timeHorizon baseDailyReturnPerc
  let spotPriceAtTarget := params.currentPrice * (1 + finalDayPriceMove)
  let spotInvestment := params.initialInvestment
  let spotPnL := spotInvestment * ((spotPriceAtTarget - params.currentPrice) / params.currentPrice)
  let leveragedPnL := spotPnL * params.leverage - params.fundingFees
  let baseVolatility := |finalDayPriceMove| * 100
  let scenarioAdjustedRisk := baseVolatility * riskMultiplier
  let spotRisk := scenarioAdjustedRisk
  let leverageRisk := spotRisk * params.leverage
  let spotSharpe := spotPnL / (spotRisk * spotInvestment)
  let leverageSharpe := leveragedPnL / (leverageRisk * params.initialInvestment)
  let stub := calculateLiquidationDetails params.currentPrice params.leverage
    (params.initialInvestment * params.leverage) params.isLong
  let effectiveMargin := params.initialInvestment - params.fundingFees
  let marginBuffer := effectiveMargin - stub.maintenanceMarginRequired
  let marginBufferPercent := (marginBuffer / params.initialInvestment) * 100
  let fundingToPositionPercent := (params.fundingFees / params.initialInvestment) * 100
  let fundingToPnL := jsDiv params.fundingFees |leveragedPnL|
  let leveragedReturn := (leveragedPnL / params.initialInvestment) * 100
  let spotReturn := (spotPnL / spotInvestment) * 100
  let isFundingSignificant := decide (2 < fundingToPositionPercent) && jsGt fundingToPnL (1 / 2)
  let hasAdequateMargin := decide (20 < marginBufferPercent)
  let isLeverageWorthIt :=
    decide (spotReturn * (3 / 2) < leveragedReturn) && hasAdequateMargin &&
      (!isFundingSignificant || decide (spotReturn * 3 < leveragedReturn))
  { spotPnL := spotPnL
    leveragedPnL := leveragedPnL
    spotReturn := spotReturn
    leveragedReturn := leveragedReturn
    spotSharpe := spotSharpe
    leverageSharpe := leverageSharpe
    isFundingSignificant := isFundingSignificant
    isLeverageWorthIt := isLeverageWorthIt
    leverageMultiplier := jsDiv leveragedPnL spotPnL
    fundingDragPercent := fundingToPositionPercent
    scenarioAdjustedRisk := scenarioAdjustedRisk
    liquidationRisk := stub.liquidationDistancePercent
    marginBuffer := marginBufferPercent }

end SpotCompare

namespace Scenario

/-- A JavaScript `number` that may be an IEEE special value, over exact reals
(for the scenario formulas that use `Math.pow` with fractional exponents). -/
inductive JsReal where
  | num : ℝ → JsReal
  | posInf : JsReal
  | negInf : JsReal
  | nan : JsReal

/-- JavaScript division `a / b` over reals: `0/0 = NaN`, `x/0 = ±Infinity`. -/
noncomputable def jsDivR (a b : ℝ) : JsReal :=
  if b = 0 then (if a = 0 then .nan else if 0 < a then .posInf else .negInf)
  else .num (a / b)

/-- Embeds the `Exponential Pump` scenario's `priceModifier`
(`src/components/ProfitLossChart.tsx` line 52 and
`src/utils/spotCompareUtils.ts` lines 10-11):
`baseReturn * Math.pow(day, 1.5) / Math.pow(day, 0.5)`, with `Math.pow`
modelled by `Real.rpow` and the division by JavaScript division (at
`day = 0` both powers are `0` and `0/0 = NaN`). -/
noncomputable def expPumpPriceModifier (day : ℕ) (baseReturn : ℝ) : JsReal :=
  jsDivR (baseReturn * (day : ℝ) ^ (1.5 : ℝ)) ((day : ℝ) ^ (0.5 : ℝ))

/-- The `Linear` scenario's `priceModifier` over reals, for comparison:
`baseReturn * day`. -/
def linearPriceModifierR (day : ℕ) (baseReturn : ℝ) : ℝ := baseReturn * day

end Scenario

namespace FundingImpact

theorem overrideB_none (periods : ℕ) : overrideB periods none = false := rfl

theorem feesAcc_zero (ps fr im : ℚ) : feesAcc ps fr im 0 = 0 := rfl

theorem curAcc_zero (ps fr im : ℚ) : curAcc ps fr im 0 = ps := rfl

theorem feesAcc_succ (ps fr im : ℚ) (n : ℕ) :
    feesAcc ps fr im (n + 1) = feesAcc ps fr im n + curAcc ps fr im n * (fr / 100) := rfl

theorem curAcc_succ (ps fr im : ℚ) (n : ℕ) :
    curAcc ps fr im (n + 1) = ps * ((im - feesAcc ps fr im n) / im) := rfl

/-- Running the loop body `fuel` times from iteration `i` without ever hitting
the liquidation break reproduces the pure accrual recurrence. -/
theorem go_noBreak (ps fr im mm : ℚ) :
    ∀ (fuel i : ℕ) (eff : ℚ),
      (∀ j, i ≤ j → j < i + fuel → ¬ cond ps fr im mm j) →
      go ps fr im mm fuel i (feesAcc ps fr im i) (curAcc ps fr im i) eff =
        ⟨feesAcc ps fr im (i + fuel),
         if fuel = 0 then eff else im - feesAcc ps fr im (i + fuel - 1), none⟩ := by
  intro fuel
  induction fuel with
  | zero => intro i eff _h; simp [go]
  | succ n ih =>
    intro i eff h
    have hci : ¬ (im - feesAcc ps fr im i ≤ mm) := h i le_rfl (by omega)
    simp only [go]
    rw [if_neg hci, ← feesAcc_succ, ← curAcc_succ,
      ih (i + 1) (im - feesAcc ps fr im i) (fun j hj1 hj2 => h j (by omega) (by omega))]
    have e1 : i + 1 + n = i + (n + 1) := by omega
    rw [e1]
    cases n with
    | zero => simp
    | succ m => simp

/-- Running the loop from iteration `i` hits the break exactly at the first
iteration `k ≥ i` whose liquidation test holds, returning the fees
accumulated before `k` and `effectiveMargin = initialMargin - fees`. -/
theorem go_break (ps fr im mm : ℚ) :
    ∀ (fuel i : ℕ) (eff : ℚ) (k : ℕ), i ≤ k → k < i + fuel →
      cond ps fr im mm k → (∀ j, i ≤ j → j < k → ¬ cond ps fr im mm j) →
      go ps fr im mm fuel i (feesAcc ps fr im i) (curAcc ps fr im i) eff =
        ⟨feesAcc ps fr im k, im - feesAcc ps fr im k, some k⟩ := by
  intro fuel
  induction fuel with
  | zero => intro i eff k h1 h2 _ _; omega
  | succ n ih =>
    intro i eff k hik hk hck hmin
    rcases eq_or_lt_of_le hik with rfl | hlt
    · have hc : im - feesAcc ps fr im i ≤ mm := hck
      simp only [go]
      rw [if_pos hc]
    · have hci : ¬ (im - feesAcc ps fr im i ≤ mm) := hmin i le_rfl hlt
      simp only [go]
      rw [if_neg hci, ← feesAcc_succ, ← curAcc_succ,
        ih (i + 1) (im - feesAcc ps fr im i) k hlt (by omega) hck
          (fun j hj1 hj2 => hmin j (by omega) hj2)]

/-- The loop as started by `calculateFundingImpact`, when no iteration below
`fuel` satisfies the liquidation test. -/
theorem go_run_noBreak (ps fr im mm : ℚ) (fuel : ℕ)
    (h : ∀ j, j < fuel → ¬ cond ps fr im mm j) :
    go ps fr im mm fuel 0 0 ps im =
      ⟨feesAcc ps fr im fuel,
       if fuel = 0 then im else im - feesAcc ps fr im (fuel - 1), none⟩ := by
  have := go_noBreak ps fr im mm fuel 0 im (fun j _ hj => h j (by omega))
  simpa using this

/-- The loop as started by `calculateFundingImpact`, when `k < fuel` is the
first iteration satisfying the liquidation test. -/
theorem go_run_break (ps fr im mm : ℚ) (fuel k : ℕ) (hk : k < fuel)
    (hck : cond ps fr im mm k) (hmin : ∀ j, j < k → ¬ cond ps fr im mm j) :
    go ps fr im mm fuel 0 0 ps im =
      ⟨feesAcc ps fr im k, im - feesAcc ps fr im k, some k⟩ := by
  have := go_break ps fr im mm fuel 0 im k (Nat.zero_le k) (by omega) hck
    (fun j _ hj => hmin j hj)
  simpa using this

/-- If the loop of `calculateFundingImpact` breaks at `k`, then `k` is the
first index satisfying the liquidation test, and `k` is below the iteration
bound. -/
theorem loopOf_liqAt_some (ps fr : ℚ) (periods : ℕ) (lev im cp : ℚ)
    (isLong : Bool) (c : Option ℕ) (k : ℕ)
    (h : (loopOf ps fr periods lev im cp isLong c).liqAt = some k) :
    cond ps fr im (mmOf cp lev ps isLong) k ∧
      (∀ j, j < k → ¬ cond ps fr im (mmOf cp lev ps isLong) j) ∧
      k < periodsToCalculate periods c := by
  classical
  set mm := mmOf cp lev ps isLong with hmm
  set f := periodsToCalculate periods c with hf
  by_cases hex : ∃ j, j < f ∧ cond ps fr im mm j
  · obtain ⟨j0, hj0⟩ := hex
    have hfind := Nat.find_spec (⟨j0, hj0⟩ : ∃ j, j < f ∧ cond ps fr im mm j)
    set k0 := Nat.find (⟨j0, hj0⟩ : ∃ j, j < f ∧ cond ps fr im mm j) with hk0
    have hmin : ∀ j, j < k0 → ¬ cond ps fr im mm j := by
      intro j hj hcj
      exact (Nat.find_min (⟨j0, hj0⟩ : ∃ j, j < f ∧ cond ps fr im mm j) hj)
        ⟨by omega, hcj⟩
    have hrun := go_run_break ps fr im mm f k0 hfind.1 hfind.2 hmin
    have : (loopOf ps fr periods lev im cp isLong c).liqAt = some k0 := by
      unfold loopOf
      rw [← hmm, ← hf, hrun]
    rw [this] at h
    obtain rfl : k0 = k := by injection h
    exact ⟨hfind.2, hmin, hfind.1⟩
  · push_neg at hex
    have hnc : ∀ j, j < f → ¬ cond ps fr im mm j := fun j hj => hex j hj
    have hrun := go_run_noBreak ps fr im mm f hnc
    have : (loopOf ps fr periods lev im cp isLong c).liqAt = none := by
      unfold loopOf
      rw [← hmm, ← hf, hrun]
    rw [this] at h
    exact absurd h (by simp)

/-- If the loop of `calculateFundingImpact` runs to completion, no iteration
below the bound satisfies the liquidation test. -/
theorem loopOf_liqAt_none (ps fr : ℚ) (periods : ℕ) (lev im cp : ℚ)
    (isLong : Bool) (c : Option ℕ)
    (h : (loopOf ps fr periods lev im cp isLong c).liqAt = none) :
    ∀ j, j < periodsToCalculate periods c → ¬ cond ps fr im (mmOf cp lev ps isLong) j := by
  classical
  intro j hj hcj
  set mm := mmOf cp lev ps isLong with hmm
  set f := periodsToCalculate periods c with hf
  have hex : ∃ j, j < f ∧ cond ps fr im mm j := ⟨j, hj, hcj⟩
  have hfind := Nat.find_spec hex
  have hmin : ∀ m, m < Nat.find hex → ¬ cond ps fr im mm m := by
    intro m hm hcm
    exact (Nat.find_min hex hm) ⟨by omega, hcm⟩
  have hrun := go_run_break ps fr im mm f (Nat.find hex) hfind.1 hfind.2 hmin
  have : (loopOf ps fr periods lev im cp isLong c).liqAt = some (Nat.find hex) := by
    unfold loopOf
    rw [← hmm, ← hf, hrun]
  rw [this] at h
  exact absurd h (by simp)

/-- Any reachable cache entry for a key is either absent or the first index
satisfying the liquidation test for that key's parameters (the loop only
ever writes its break index, and the break index is always that first
index, whatever the period count and prior cache state). -/
theorem cacheReachable_spec (ps fr lev im cp : ℚ) (isLong : Bool) (c : Option ℕ)
    (h : CacheReachable ps fr lev im cp isLong c) :
    c = none ∨ ∃ k, c = some k ∧ cond ps fr im (mmOf cp lev ps isLong) k ∧
      ∀ j, j < k → ¬ cond ps fr im (mmOf cp lev ps isLong) j := by
  induction h with
  | init => exact Or.inl rfl
  | step periods c _hc ih =>
    rcases hL : (loopOf ps fr periods lev im cp isLong c).liqAt with _ | k
    · have hca : cacheAfter ps fr lev im cp isLong periods c = c := by
        unfold cacheAfter
        rw [hL]
      rw [hca]
      exact ih
    · have hca : cacheAfter ps fr lev im cp isLong periods c = some k := by
        unfold cacheAfter
        rw [hL]
      rw [hca]
      obtain ⟨hck, hmin, _⟩ := loopOf_liqAt_some ps fr periods lev im cp isLong c k hL
      exact Or.inr ⟨k, rfl, hck, hmin⟩

/-- Claim C3: the liquidation-period memoization cache is not observable.
For every input tuple, `calculateFundingImpact` returns the same
`FundingRateImpact` record whether its cache entry is empty or has been
warmed by any earlier sequence of calls with the same key (each possibly
using a different period count, which the cache key omits). -/
theorem calculateFundingImpact_cache_unobservable
    (ps fr lev im cp : ℚ) (isLong : Bool) (periods : ℕ) (c : Option ℕ)
    (hreach : CacheReachable ps fr lev im cp isLong c) :
    calculateFundingImpact ps fr periods lev im cp isLong c =
      calculateFundingImpact ps fr periods lev im cp isLong none := by
  rcases cacheReachable_spec ps fr lev im cp isLong c hreach with rfl | ⟨k, rfl, hck, hmin⟩
  · rfl
  by_cases hk0 : k = 0
  · subst hk0
    have hloopc : loopOf ps fr periods lev im cp isLong (some 0) =
        loopOf ps fr periods lev im cp isLong none := by
      unfold loopOf periodsToCalculate
      simp
    rcases Nat.eq_zero_or_pos periods with rfl | hp
    · have h0 : loopOf ps fr 0 lev im cp isLong none = ⟨0, im, none⟩ := by
        unfold loopOf periodsToCalculate
        simp [go]
      simp [calculateFundingImpact, lpOf, overrideB, hloopc, h0]
    · have hbrk : loopOf ps fr periods lev im cp isLong none =
          ⟨feesAcc ps fr im 0, im - feesAcc ps fr im 0, some 0⟩ := by
        unfold loopOf
        exact go_run_break ps fr im (mmOf cp lev ps isLong) periods 0 hp hck
          (by omega)
      simp [calculateFundingImpact, lpOf, hloopc, hbrk]
  · by_cases hpk : periods ≤ k
    · have hloopc : loopOf ps fr periods lev im cp isLong (some k) =
          loopOf ps fr periods lev im cp isLong none := by
        unfold loopOf periodsToCalculate
        simp [hk0, Nat.min_eq_left hpk]
      rcases hL : (loopOf ps fr periods lev im cp isLong none).liqAt with _ | j
      · have hlpc : lpOf ps fr periods lev im cp isLong (some k) = some k := by
          unfold lpOf
          rw [hloopc, hL]
        have hlpn : lpOf ps fr periods lev im cp isLong none = none := by
          unfold lpOf
          rw [hL]
        have hovc : overrideB periods (some k) = false := by
          simp [overrideB]
          omega
        simp [calculateFundingImpact, hloopc, hlpc, hlpn, hovc, overrideB_none, hL]
      · exfalso
        obtain ⟨hcj, _, hjlt⟩ :=
          loopOf_liqAt_some ps fr periods lev im cp isLong none j hL
        have hjk : j < k := by
          have : periodsToCalculate periods none = periods := rfl
          omega
        exact hmin j hjk hcj
    · have hklt : k < periods := by omega
      have hloopc : loopOf ps fr periods lev im cp isLong (some k) =
          ⟨feesAcc ps fr im k, im - feesAcc ps fr im (k - 1), none⟩ := by
        unfold loopOf
        have hptc : periodsToCalculate periods (some k) = k := by
          simp [periodsToCalculate, hk0, Nat.min_eq_right (by omega : k ≤ periods)]
        rw [hptc, go_run_noBreak ps fr im (mmOf cp lev ps isLong) k
          (fun j hj => hmin j hj)]
        simp [hk0]
      have hloopn : loopOf ps fr periods lev im cp isLong none =
          ⟨feesAcc ps fr im k, im - feesAcc ps fr im k, some k⟩ := by
        unfold loopOf
        exact go_run_break ps fr im (mmOf cp lev ps isLong) periods k hklt hck
          (fun j hj => hmin j hj)
      have hlpc : lpOf ps fr periods lev im cp isLong (some k) = some k := by
        unfold lpOf
        rw [hloopc]
      have hlpn : lpOf ps fr periods lev im cp isLong none = some k := by
        unfold lpOf
        rw [hloopn]
      have hov : overrideB periods (some k) = true := by
        simp [overrideB, hk0, hklt]
      simp [calculateFundingImpact, hloopc, hloopn, hlpc, hlpn, hov]

/-- Witness for the cache-unobservability theorem at concrete inputs:
warming the empty cache with a period-count-5 call writes liquidation
period 1, and a later period-count-3 call then returns the same record as
with an empty cache. -/
theorem calculateFundingImpact_cache_unobservable_witness :
    calculateFundingImpact 1000 1 3 10 60 100 true (some 1) =
      calculateFundingImpact 1000 1 3 10 60 100 true none :=
  calculateFundingImpact_cache_unobservable 1000 1 10 60 100 true 3 (some 1)
    ((show cacheAfter 1000 1 10 60 100 true 5 none = some 1 by
        norm_num [cacheAfter, loopOf, go, mmOf, periodsToCalculate,
          LiquidationUtils.calculateLiquidationDetails]) ▸
      CacheReachable.step 5 none CacheReachable.init)

/-- Claim C2 counterexample: at
`positionSize = 1000, fundingRate = 0, periods = 1, leverage = 10,
initialMargin = 40, currentPrice = 100`, the maintenance margin is `50 ≥ 40`,
so liquidation is detected at period index 0; the JavaScript truthiness test
`if (liquidationPeriod && ...)` then skips the override, and the result has
`fundingFees = 0 ≠ initialMargin` and `effectiveMargin = 40 ≠ 0` although
`isLiquidated = true`. -/
theorem calculateFundingImpact_liquidated_at_zero_counterexample :
    (calculateFundingImpact 1000 0 1 10 40 100 true none).isLiquidated = true ∧
    (calculateFundingImpact 1000 0 1 10 40 100 true none).liquidationPeriod = some 0 ∧
    (calculateFundingImpact 1000 0 1 10 40 100 true none).fundingFees ≠ 40 ∧
    (calculateFundingImpact 1000 0 1 10 40 100 true none).effectiveMargin ≠ 0 := by
  norm_num [calculateFundingImpact, loopOf, lpOf, overrideB, go, mmOf,
    periodsToCalculate, LiquidationUtils.calculateLiquidationDetails, riskScore]

/-- Claim C2 (amended): for positive initial margin, whenever
`calculateFundingImpact` (with empty cache) reports `isLiquidated = true`,
either the liquidation was detected at a period index `≥ 1` and the result
has `fundingFees = initialMargin` and `effectiveMargin = 0`, or it was
detected at period index 0, in which case the post-loop override is skipped
and the result has `fundingFees = 0` and `effectiveMargin = initialMargin`. -/
theorem calculateFundingImpact_liquidated_values
    (ps fr : ℚ) (periods : ℕ) (lev im cp : ℚ) (isLong : Bool) (him : 0 < im)
    (hliq : (calculateFundingImpact ps fr periods lev im cp isLong none).isLiquidated
      = true) :
    ((calculateFundingImpact ps fr periods lev im cp isLong none).fundingFees = im ∧
      (calculateFundingImpact ps fr periods lev im cp isLong none).effectiveMargin = 0) ∨
    ((calculateFundingImpact ps fr periods lev im cp isLong none).liquidationPeriod
        = some 0 ∧
      (calculateFundingImpact ps fr periods lev im cp isLong none).fundingFees = 0 ∧
      (calculateFundingImpact ps fr periods lev im cp isLong none).effectiveMargin = im)
    := by
  rcases hL : (loopOf ps fr periods lev im cp isLong none).liqAt with _ | k
  · exfalso
    have hlp : lpOf ps fr periods lev im cp isLong none = none := by
      unfold lpOf
      rw [hL]
    have : (calculateFundingImpact ps fr periods lev im cp isLong none).isLiquidated
        = false := by
      simp [calculateFundingImpact, hL, hlp, overrideB_none]
    rw [this] at hliq
    exact absurd hliq (by simp)
  · obtain ⟨hck, hmin, hklt⟩ :=
      loopOf_liqAt_some ps fr periods lev im cp isLong none k hL
    have hklt' : k < periods := hklt
    have hloop : loopOf ps fr periods lev im cp isLong none =
        ⟨feesAcc ps fr im k, im - feesAcc ps fr im k, some k⟩ := by
      unfold loopOf
      exact go_run_break ps fr im (mmOf cp lev ps isLong) periods k hklt' hck hmin
    have hlp : lpOf ps fr periods lev im cp isLong none = some k := by
      unfold lpOf
      rw [hloop]
    by_cases hk0 : k = 0
    · subst hk0
      have hov : overrideB periods (some 0) = false := by
        simp [overrideB]
      right
      refine ⟨?_, ?_, ?_⟩ <;>
        simp [calculateFundingImpact, hloop, hlp, hov, feesAcc_zero,
          le_of_lt him]
    · have hov : overrideB periods (some k) = true := by
        simp [overrideB, hk0, hklt']
      left
      constructor <;> simp [calculateFundingImpact, hloop, hlp, hov]

/-- Witness for the amended C2 theorem at concrete inputs
(`initialMargin = 60`, liquidation at period 1, period count 5): the
liquidated result reports `fundingFees = 60 = initialMargin` and
`effectiveMargin = 0`. -/
theorem calculateFundingImpact_liquidated_values_witness :
    (0 : ℚ) < 60 ∧
    (((calculateFundingImpact 1000 1 5 10 60 100 true none).fundingFees = 60 ∧
      (calculateFundingImpact 1000 1 5 10 60 100 true none).effectiveMargin = 0) ∨
    ((calculateFundingImpact 1000 1 5 10 60 100 true none).liquidationPeriod
        = some 0 ∧
      (calculateFundingImpact 1000 1 5 10 60 100 true none).fundingFees = 0 ∧
      (calculateFundingImpact 1000 1 5 10 60 100 true none).effectiveMargin = 60)) :=
  ⟨by norm_num,
    calculateFundingImpact_liquidated_values 1000 1 5 10 60 100 true (by norm_num)
      (by norm_num [calculateFundingImpact, loopOf, lpOf, overrideB, go, mmOf,
        periodsToCalculate, LiquidationUtils.calculateLiquidationDetails])⟩

theorem mmOf_nonneg (cp lev ps : ℚ) (isLong : Bool) (hps : 0 ≤ ps)
    (hlev : 1 ≤ lev) : 0 ≤ mmOf cp lev ps isLong := by
  unfold mmOf LiquidationUtils.calculateLiquidationDetails
  by_cases h : lev = 1
  · simp [h]
  · simp only [h, if_false]
    exact mul_nonneg (div_nonneg hps (by linarith)) (by norm_num)

theorem curAcc_nonneg (ps fr im mm : ℚ) (hps : 0 < ps) (him : 0 < im)
    (n : ℕ) (h : ∀ j, j < n → ¬ cond ps fr im mm j) (hmm : 0 ≤ mm) :
    0 ≤ curAcc ps fr im n := by
  cases n with
  | zero => rw [curAcc_zero]; exact le_of_lt hps
  | succ m =>
    rw [curAcc_succ]
    have hcm : ¬ cond ps fr im mm m := h m (by omega)
    unfold cond at hcm
    push_neg at hcm
    have hpos : 0 < im - feesAcc ps fr im m := by linarith
    exact mul_nonneg (le_of_lt hps) (le_of_lt (div_pos hpos him))

/-- Before any iteration satisfies the liquidation test, the accrued funding
fees are non-decreasing in the iteration count (each increment is
`currentPositionSize * fundingRate / 100 ≥ 0` for a non-negative funding
rate). -/
theorem feesAcc_mono (ps fr im mm : ℚ) (hps : 0 < ps) (him : 0 < im)
    (hmm : 0 ≤ mm) (hfr : 0 ≤ fr) :
    ∀ p pp : ℕ, p ≤ pp → (∀ j, j < pp → ¬ cond ps fr im mm j) →
      feesAcc ps fr im p ≤ feesAcc ps fr im pp := by
  intro p pp
  induction pp with
  | zero =>
    intro hle _
    obtain rfl : p = 0 := Nat.le_zero.mp hle
    exact le_refl _
  | succ m ih =>
    intro hle h
    rcases Nat.lt_or_ge p (m + 1) with hlt | hge
    · have h1 : feesAcc ps fr im p ≤ feesAcc ps fr im m :=
        ih (by omega) (fun j hj => h j (by omega))
      have h2 : feesAcc ps fr im m ≤ feesAcc ps fr im (m + 1) := by
        rw [feesAcc_succ]
        have hc : 0 ≤ curAcc ps fr im m :=
          curAcc_nonneg ps fr im mm hps him m (fun j hj => h j (by omega)) hmm
        have : 0 ≤ curAcc ps fr im m * (fr / 100) :=
          mul_nonneg hc (by positivity)
        linarith
      linarith
    · obtain rfl : p = m + 1 := by omega
      exact le_refl _

/-- With an empty cache, `calculateFundingImpact` reports
`isLiquidated = false` exactly when no iteration below the period count
satisfies the liquidation test. -/
theorem isLiquidated_false_iff (ps fr : ℚ) (periods : ℕ) (lev im cp : ℚ)
    (isLong : Bool) :
    (calculateFundingImpact ps fr periods lev im cp isLong none).isLiquidated = false
      ↔ ∀ j, j < periods → ¬ cond ps fr im (mmOf cp lev ps isLong) j := by
  constructor
  · intro hfalse j hj hcj
    rcases hL : (loopOf ps fr periods lev im cp isLong none).liqAt with _ | k
    · exact loopOf_liqAt_none ps fr periods lev im cp isLong none hL j hj hcj
    · have : (calculateFundingImpact ps fr periods lev im cp isLong none).isLiquidated
          = true := by
        simp [calculateFundingImpact, hL]
      rw [this] at hfalse
      exact absurd hfalse (by simp)
  · intro h
    have hloop : loopOf ps fr periods lev im cp isLong none =
        ⟨feesAcc ps fr im periods,
         if periods = 0 then im else im - feesAcc ps fr im (periods - 1), none⟩ := by
      unfold loopOf
      exact go_run_noBreak ps fr im (mmOf cp lev ps isLong) periods h
    have hlp : lpOf ps fr periods lev im cp isLong none = none := by
      unfold lpOf
      rw [hloop]
    simp [calculateFundingImpact, hloop, hlp, overrideB_none]

/-- With an empty cache and no liquidation below the period count, the
reported funding fees are exactly the accrued sequence at the period
count. -/
theorem fundingFees_of_noLiq (ps fr : ℚ) (periods : ℕ) (lev im cp : ℚ)
    (isLong : Bool)
    (h : ∀ j, j < periods → ¬ cond ps fr im (mmOf cp lev ps isLong) j) :
    (calculateFundingImpact ps fr periods lev im cp isLong none).fundingFees =
      feesAcc ps fr im periods := by
  have hloop : loopOf ps fr periods lev im cp isLong none =
      ⟨feesAcc ps fr im periods,
       if periods = 0 then im else im - feesAcc ps fr im (periods - 1), none⟩ := by
    unfold loopOf
    exact go_run_noBreak ps fr im (mmOf cp lev ps isLong) periods h
  have hlp : lpOf ps fr periods lev im cp isLong none = none := by
    unfold lpOf
    rw [hloop]
  simp [calculateFundingImpact, hloop, hlp, overrideB_none]

/-- With an empty cache, a reported `liquidationPeriod = some k` means `k` is
the first index satisfying the liquidation test and `k` is below the period
count. -/
theorem liquidationPeriod_spec (ps fr : ℚ) (periods : ℕ) (lev im cp : ℚ)
    (isLong : Bool) (k : ℕ)
    (h : (calculateFundingImpact ps fr periods lev im cp isLong none).liquidationPeriod
      = some k) :
    cond ps fr im (mmOf cp lev ps isLong) k ∧
      (∀ j, j < k → ¬ cond ps fr im (mmOf cp lev ps isLong) j) ∧ k < periods := by
  rcases hL : (loopOf ps fr periods lev im cp isLong none).liqAt with _ | j
  · exfalso
    have hlp : lpOf ps fr periods lev im cp isLong none = none := by
      unfold lpOf
      rw [hL]
    have : (calculateFundingImpact ps fr periods lev im cp isLong none).liquidationPeriod
        = none := by
      simp [calculateFundingImpact, hL, hlp, overrideB_none]
    rw [this] at h
    exact absurd h (by simp)
  · have hlp : lpOf ps fr periods lev im cp isLong none = some j := by
      unfold lpOf
      rw [hL]
    have hval : (calculateFundingImpact ps fr periods lev im cp isLong none).liquidationPeriod
        = some j := by
      simp [calculateFundingImpact, hL, hlp]
    rw [hval] at h
    obtain rfl : j = k := by injection h
    exact loopOf_liqAt_some ps fr periods lev im cp isLong none j hL

/-- With an empty cache, once the period count strictly exceeds a first
liquidation index `k ≥ 1`, the post-loop override applies and the reported
funding fees equal the initial margin exactly. -/
theorem fundingFees_past_liq (ps fr : ℚ) (pp : ℕ) (lev im cp : ℚ)
    (isLong : Bool) (k : ℕ) (hk1 : 1 ≤ k) (hkpp : k < pp)
    (hck : cond ps fr im (mmOf cp lev ps isLong) k)
    (hmin : ∀ j, j < k → ¬ cond ps fr im (mmOf cp lev ps isLong) j) :
    (calculateFundingImpact ps fr pp lev im cp isLong none).fundingFees = im := by
  have hloop : loopOf ps fr pp lev im cp isLong none =
      ⟨feesAcc ps fr im k, im - feesAcc ps fr im k, some k⟩ := by
    unfold loopOf
    exact go_run_break ps fr im (mmOf cp lev ps isLong) pp k hkpp hck hmin
  have hlp : lpOf ps fr pp lev im cp isLong none = some k := by
    unfold lpOf
    rw [hloop]
  have hov : overrideB pp (some k) = true := by
    simp [overrideB, hkpp]
    omega
  simp [calculateFundingImpact, hloop, hlp, hov]

/-- Claim C6 (amended): for positive position size and initial margin,
leverage at least 1 and a non-negative funding rate, the `totalFundingFees`
returned by `calculateFundingImpact` (empty cache) is non-decreasing in the
period count while no liquidation is reported, and once a liquidation period
`k ≥ 1` is reported, every period count strictly beyond `k` yields
`totalFundingFees = initialMargin` exactly. -/
theorem calculateFundingImpact_fees_monotone
    (ps fr lev im cp : ℚ) (isLong : Bool)
    (hps : 0 < ps) (him : 0 < im) (hlev : 1 ≤ lev) (hfr : 0 ≤ fr) :
    (∀ p pp : ℕ, p ≤ pp →
      (calculateFundingImpact ps fr pp lev im cp isLong none).isLiquidated = false →
      (calculateFundingImpact ps fr p lev im cp isLong none).fundingFees ≤
        (calculateFundingImpact ps fr pp lev im cp isLong none).fundingFees) ∧
    (∀ p k : ℕ,
      (calculateFundingImpact ps fr p lev im cp isLong none).liquidationPeriod
        = some k → 1 ≤ k → ∀ pp : ℕ, k < pp →
      (calculateFundingImpact ps fr pp lev im cp isLong none).fundingFees = im) := by
  have hmm : 0 ≤ mmOf cp lev ps isLong :=
    mmOf_nonneg cp lev ps isLong (le_of_lt hps) hlev
  constructor
  · intro p pp hle hnl
    have h := (isLiquidated_false_iff ps fr pp lev im cp isLong).mp hnl
    rw [fundingFees_of_noLiq ps fr pp lev im cp isLong h,
      fundingFees_of_noLiq ps fr p lev im cp isLong (fun j hj => h j (by omega))]
    exact feesAcc_mono ps fr im (mmOf cp lev ps isLong) hps him hmm hfr p pp hle h
  · intro p k hlpk hk1 pp hkpp
    obtain ⟨hck, hmin, _⟩ :=
      liquidationPeriod_spec ps fr p lev im cp isLong k hlpk
    exact fundingFees_past_liq ps fr pp lev im cp isLong k hk1 hkpp hck hmin

/-- Claim C6 counterexample: (i) with a negative funding rate
(`fundingRate = -1`), fees strictly decrease in the period count while no
liquidation ever occurs; (ii) with liquidation at period index 0
(`initialMargin = 40` below the maintenance margin 50), the period count 1
is strictly beyond the liquidation period yet the returned fees are
`0 ≠ initialMargin`.  Both refute the claim as stated for arbitrary
funding rates and liquidation periods. -/
theorem calculateFundingImpact_fees_monotone_counterexample :
    ((calculateFundingImpact 1000 (-1) 1 10 1000 100 true none).isLiquidated = false ∧
     (calculateFundingImpact 1000 (-1) 1 10 1000 100 true none).fundingFees <
       (calculateFundingImpact 1000 (-1) 0 10 1000 100 true none).fundingFees) ∧
    ((calculateFundingImpact 1000 0 1 10 40 100 true none).liquidationPeriod
        = some 0 ∧
     (calculateFundingImpact 1000 0 1 10 40 100 true none).fundingFees ≠ 40) := by
  norm_num [calculateFundingImpact, loopOf, lpOf, overrideB, go, mmOf,
    periodsToCalculate, LiquidationUtils.calculateLiquidationDetails, riskScore]

/-- Witness for the amended C6 theorem at concrete inputs: monotonicity
between period counts 1 and 2 at margin 1000 (no liquidation), and the
exact `initialMargin` fee at period count 7 once liquidation is reported at
period 1 with margin 60. -/
theorem calculateFundingImpact_fees_monotone_witness :
    ((calculateFundingImpact 1000 1 1 10 1000 100 true none).fundingFees ≤
      (calculateFundingImpact 1000 1 2 10 1000 100 true none).fundingFees) ∧
    (calculateFundingImpact 1000 1 7 10 60 100 true none).fundingFees = 60 :=
  ⟨(calculateFundingImpact_fees_monotone 1000 1 10 1000 100 true (by norm_num)
      (by norm_num) (by norm_num) (by norm_num)).1 1 2 (by norm_num)
      (by norm_num [calculateFundingImpact, loopOf, lpOf, overrideB, go, mmOf,
        periodsToCalculate, LiquidationUtils.calculateLiquidationDetails]),
   (calculateFundingImpact_fees_monotone 1000 1 10 60 100 true (by norm_num)
      (by norm_num) (by norm_num) (by norm_num)).2 5 1
      (by norm_num [calculateFundingImpact, loopOf, lpOf, overrideB, go, mmOf,
        periodsToCalculate, LiquidationUtils.calculateLiquidationDetails])
      (by norm_num) 7 (by norm_num)⟩

theorem riskScore_mem (isLiq : Bool) (lev im eff mm : ℚ) :
    0 ≤ riskScore isLiq lev im eff mm ∧ riskScore isLiq lev im eff mm ≤ 100 := by
  unfold riskScore
  rcases isLiq with _ | _
  · simp only [Bool.false_eq_true, if_false]
    by_cases h : lev = 1 <;>
      simp only [h, if_true, if_false] <;>
      exact ⟨le_max_left 0 _, max_le (by norm_num) (min_le_left _ _)⟩
  · simp only [if_true]
    norm_num

theorem riskScore_of_liquidated (lev im eff mm : ℚ) :
    riskScore true lev im eff mm = 100 := rfl

/-- Claim C7: for leverage in `{1, 2, 5, 10, 25, 50}`, funding rate in
`[-1, 1]` and positive position size, initial margin and current price, the
`liquidationRisk` returned by `calculateFundingImpact` always lies in
`[0, 100]`, and equals 100 exactly when the position is liquidated. -/
theorem calculateFundingImpact_liquidationRisk_range
    (ps fr lev im cp : ℚ) (isLong : Bool) (periods : ℕ) (c : Option ℕ)
    (hlev : lev = 1 ∨ lev = 2 ∨ lev = 5 ∨ lev = 10 ∨ lev = 25 ∨ lev = 50)
    (hfr1 : -1 ≤ fr) (hfr2 : fr ≤ 1) (hps : 0 < ps) (him : 0 < im)
    (hcp : 0 < cp) :
    0 ≤ (calculateFundingImpact ps fr periods lev im cp isLong c).liquidationRisk ∧
    (calculateFundingImpact ps fr periods lev im cp isLong c).liquidationRisk ≤ 100 ∧
    ((calculateFundingImpact ps fr periods lev im cp isLong c).isLiquidated = true →
      (calculateFundingImpact ps fr periods lev im cp isLong c).liquidationRisk = 100)
    := by
  have hrisk : (calculateFundingImpact ps fr periods lev im cp isLong c).liquidationRisk
      = riskScore
        ((calculateFundingImpact ps fr periods lev im cp isLong c).isLiquidated)
        lev im
        (if overrideB periods (lpOf ps fr periods lev im cp isLong c) then 0
         else (loopOf ps fr periods lev im cp isLong c).effectiveMargin)
        (LiquidationUtils.calculateLiquidationDetails cp lev ps
          isLong).maintenanceMarginRequired := rfl
  refine ⟨?_, ?_, ?_⟩
  · rw [hrisk]
    exact (riskScore_mem _ _ _ _ _).1
  · rw [hrisk]
    exact (riskScore_mem _ _ _ _ _).2
  · intro hliq
    rw [hrisk, hliq]
    exact riskScore_of_liquidated _ _ _ _

/-- Witness for the C7 theorem at concrete inputs
(`leverage = 10`, `fundingRate = 1/2`). -/
theorem calculateFundingImpact_liquidationRisk_range_witness :
    0 ≤ (calculateFundingImpact 1000 (1/2) 5 10 60 100 true none).liquidationRisk ∧
    (calculateFundingImpact 1000 (1/2) 5 10 60 100 true none).liquidationRisk ≤ 100 ∧
    ((calculateFundingImpact 1000 (1/2) 5 10 60 100 true none).isLiquidated = true →
      (calculateFundingImpact 1000 (1/2) 5 10 60 100 true none).liquidationRisk = 100)
    :=
  calculateFundingImpact_liquidationRisk_range 1000 (1/2) 10 60 100 true 5 none
    (by norm_num) (by norm_num) (by norm_num) (by norm_num) (by norm_num)
    (by norm_num)

end FundingImpact

namespace LiquidationUtils

/-- Claim C8: for every current price, position size `P` and direction,
`calculateLiquidationDetails` returns
`maintenanceMarginRequired = 0.5 * P / leverage` when `leverage > 1`, and
exactly 0 when `leverage = 1`. -/
theorem calculateLiquidationDetails_maintenanceMargin
    (currentPrice leverage positionSize : ℚ) (isLong : Bool) :
    (1 < leverage →
      (calculateLiquidationDetails currentPrice leverage positionSize
        isLong).maintenanceMarginRequired = (1 / 2) * positionSize / leverage) ∧
    (leverage = 1 →
      (calculateLiquidationDetails currentPrice leverage positionSize
        isLong).maintenanceMarginRequired = 0) := by
  constructor
  · intro hlev
    have hne : leverage ≠ 1 := by linarith
    simp only [calculateLiquidationDetails, hne, if_false]
    ring
  · intro h
    simp [calculateLiquidationDetails, h]

/-- Witness for the C8 theorem at concrete inputs (`leverage = 2` and
`leverage = 1`, position size 1000). -/
theorem calculateLiquidationDetails_maintenanceMargin_witness :
    (calculateLiquidationDetails 100 2 1000 true).maintenanceMarginRequired
      = (1 / 2) * 1000 / 2 ∧
    (calculateLiquidationDetails 100 1 1000 true).maintenanceMarginRequired = 0 :=
  ⟨(calculateLiquidationDetails_maintenanceMargin 100 2 1000 true).1 (by norm_num),
   (calculateLiquidationDetails_maintenanceMargin 100 1 1000 true).2 rfl⟩

end LiquidationUtils

namespace Chart

/-- Claim C1 counterexample: at
`initialInvestment = 1000, leverage = 10, currentPrice = 100,
targetPrice = 110, timeHorizon = 1, fundingRate = 1 (% per period)`,
scenario Linear, day 1 (3 funding periods), the emitted point has
`rawPnL = 1000`, `fundingFees = 290`, `effectiveMargin = 800`, and
`totalPnL = 510`, which differs from `rawPnL - |fundingFees| = 710` and from
the closed form `positionSize * (targetPrice - currentPrice)/currentPrice -
totalFundingFees = 710` by far more than a `1e-6` relative tolerance:
the chart scales the position by the decayed effective margin. -/
theorem chartPoint_totalPnL_counterexample :
    (chartPoint ⟨1000, 10, 110, 1, 1, 100⟩ linearPriceModifier
      linearFundingModifier none 1).isLiquidated = false ∧
    (chartPoint ⟨1000, 10, 110, 1, 1, 100⟩ linearPriceModifier
      linearFundingModifier none 1).totalPnL ≠
      (chartPoint ⟨1000, 10, 110, 1, 1, 100⟩ linearPriceModifier
        linearFundingModifier none 1).rawPnL -
      |(chartPoint ⟨1000, 10, 110, 1, 1, 100⟩ linearPriceModifier
        linearFundingModifier none 1).fundingFees| ∧
    ¬ (|(chartPoint ⟨1000, 10, 110, 1, 1, 100⟩ linearPriceModifier
          linearFundingModifier none 1).totalPnL -
        (1000 * 10 * ((110 - 100 : ℚ) / 100) -
          (chartPoint ⟨1000, 10, 110, 1, 1, 100⟩ linearPriceModifier
            linearFundingModifier none 1).fundingFees)| ≤
       (1 / 1000000) *
        |1000 * 10 * ((110 - 100 : ℚ) / 100) -
          (chartPoint ⟨1000, 10, 110, 1, 1, 100⟩ linearPriceModifier
            linearFundingModifier none 1).fundingFees|) := by
  norm_num [chartPoint, linearPriceModifier, linearFundingModifier,
    FundingImpact.calculateFundingImpact, FundingImpact.loopOf,
    FundingImpact.lpOf, FundingImpact.overrideB, FundingImpact.go,
    FundingImpact.mmOf, FundingImpact.periodsToCalculate,
    LiquidationUtils.calculateLiquidationDetails, FundingImpact.riskScore,
    abs_le]

/-- Claim C1 (amended): for every parameter set, every scenario modifier pair
and every day whose emitted point is not liquidated, the emitted `totalPnL`
equals `(effectiveMargin / initialInvestment) * rawPnL - fundingFees`, i.e.
the raw PnL scaled down by the funding-decayed effective position size,
minus the (signed) funding fees; in particular the day-`timeHorizon` Linear
closed form holds with this effective position size, exactly. -/
theorem chartPoint_totalPnL (params : TradingParams) (pm : ℕ → ℚ → ℚ)
    (fm : ℕ → ℚ → ℚ → ℚ) (day : ℕ)
    (h : (chartPoint params pm fm none day).isLiquidated = false) :
    (chartPoint params pm fm none day).totalPnL =
      ((chartPoint params pm fm none day).effectiveMargin /
          params.initialInvestment) *
        (chartPoint params pm fm none day).rawPnL -
        (chartPoint params pm fm none day).fundingFees := by
  simp only [chartPoint] at h ⊢
  split at h
  · simp at h
  · next hcond =>
    rw [if_neg hcond]
    dsimp only
    ring

/-- Witness for the amended C1 theorem at the concrete inputs of the
counterexample (not liquidated at day 1). -/
theorem chartPoint_totalPnL_witness :
    (chartPoint ⟨1000, 10, 110, 1, 1, 100⟩ linearPriceModifier
      linearFundingModifier none 1).totalPnL =
      ((chartPoint ⟨1000, 10, 110, 1, 1, 100⟩ linearPriceModifier
          linearFundingModifier none 1).effectiveMargin / (1000 : ℚ)) *
        (chartPoint ⟨1000, 10, 110, 1, 1, 100⟩ linearPriceModifier
          linearFundingModifier none 1).rawPnL -
        (chartPoint ⟨1000, 10, 110, 1, 1, 100⟩ linearPriceModifier
          linearFundingModifier none 1).fundingFees :=
  chartPoint_totalPnL ⟨1000, 10, 110, 1, 1, 100⟩ linearPriceModifier
    linearFundingModifier 1
    (by norm_num [chartPoint, linearPriceModifier, linearFundingModifier,
      FundingImpact.calculateFundingImpact, FundingImpact.loopOf,
      FundingImpact.lpOf, FundingImpact.overrideB, FundingImpact.go,
      FundingImpact.mmOf, FundingImpact.periodsToCalculate,
      LiquidationUtils.calculateLiquidationDetails, FundingImpact.riskScore])

end Chart

namespace SpotCompare

/-- Claim C5: for every input (and every scenario modifier and risk
multiplier), `calculateSpotComparison` returns `liquidationRisk = 0` exactly
and `marginBuffer = ((initialInvestment - fundingFees) / initialInvestment)
* 100`, because its internal liquidation-details helper is a stub returning
zeros regardless of price, leverage, position size or direction. -/
theorem calculateSpotComparison_stub_fields (pm : ℕ → ℚ → ℚ) (rm : ℚ)
    (params : SpotComparisonParams) :
    (calculateSpotComparison pm rm params).liquidationRisk = 0 ∧
    (calculateSpotComparison pm rm params).marginBuffer =
      ((params.initialInvestment - params.fundingFees) /
        params.initialInvestment) * 100 := by
  constructor
  · rfl
  · simp [calculateSpotComparison, calculateLiquidationDetails]

theorem jsGt_jsDiv_abs_half (a b : ℚ) :
    jsGt (jsDiv a |b|) (1 / 2) = true ↔
      ((¬ b = 0 ∧ 1 / 2 < a / |b|) ∨ (b = 0 ∧ 0 < a)) := by
  by_cases hb : b = 0
  · subst hb
    by_cases ha : a = 0
    · simp [ha, jsDiv, jsGt]
    · rcases lt_trichotomy a 0 with h | h | h
      · simp [jsDiv, jsGt, ha, not_lt_of_gt h]
      · exact absurd h ha
      · simp [jsDiv, jsGt, ha, h]
  · have habs : |b| ≠ 0 := abs_ne_zero.mpr hb
    simp [jsDiv, jsGt, habs, hb]

theorem percent_gt_two (a b : ℚ) : 2 < a / b * 100 ↔ 2 / 100 < a / b := by
  constructor <;> intro h <;> linarith

/-- Claim C9: `isLeverageWorthIt` is true iff the leveraged return exceeds
1.5x the spot return AND the margin-buffer percent exceeds 20 AND (funding
is not significant OR the leveraged return exceeds 3x the spot return);
`isFundingSignificant` is true iff `fundingFees / initialInvestment`
exceeds 2% AND `fundingFees / |leveragedPnL|` exceeds 50% (where at
`leveragedPnL = 0` the latter ratio is JavaScript `Infinity` when
`fundingFees > 0`, which does exceed 50%, and `NaN` otherwise, which does
not). -/
theorem calculateSpotComparison_decision_logic (pm : ℕ → ℚ → ℚ) (rm : ℚ)
    (params : SpotComparisonParams) :
    ((calculateSpotComparison pm rm params).isLeverageWorthIt = true ↔
      ((calculateSpotComparison pm rm params).spotReturn * (3 / 2) <
          (calculateSpotComparison pm rm params).leveragedReturn ∧
        20 < (calculateSpotComparison pm rm params).marginBuffer ∧
        ((calculateSpotComparison pm rm params).isFundingSignificant = false ∨
          (calculateSpotComparison pm rm params).spotReturn * 3 <
            (calculateSpotComparison pm rm params).leveragedReturn))) ∧
    ((calculateSpotComparison pm rm params).isFundingSignificant = true ↔
      (2 / 100 < params.fundingFees / params.initialInvestment ∧
        ((¬ (calculateSpotComparison pm rm params).leveragedPnL = 0 ∧
           1 / 2 < params.fundingFees /
             |(calculateSpotComparison pm rm params).leveragedPnL|) ∨
         ((calculateSpotComparison pm rm params).leveragedPnL = 0 ∧
           0 < params.fundingFees)))) := by
  constructor
  · simp only [calculateSpotComparison]
    simp only [Bool.and_eq_true, Bool.or_eq_true, Bool.not_eq_true',
      decide_eq_true_eq, Bool.and_eq_false_iff, decide_eq_false_iff_not]
    tauto
  · simp only [calculateSpotComparison]
    rw [Bool.and_eq_true, decide_eq_true_eq, percent_gt_two,
      jsGt_jsDiv_abs_half]

/-- Claim C10 (evaluating the unguarded divisions at the degenerate inputs):
with `targetPrice = currentPrice` (Linear scenario) the spot PnL is 0 and
`leverageMultiplier = leveragedPnL / spotPnL` is JavaScript `-Infinity`, not
a finite sentinel; and with inputs making `leveragedPnL = 0`, the internal
`fundingFees / |leveragedPnL|` is `+Infinity`, which propagates into
`isFundingSignificant = true`.  The source guards neither division. -/
theorem calculateSpotComparison_degenerate_division :
    (calculateSpotComparison Chart.linearPriceModifier 1
      ⟨1000, 100, 100, 2, 200, 1, true⟩).leverageMultiplier = JsNum.negInf ∧
    (calculateSpotComparison Chart.linearPriceModifier 1
      ⟨1000, 100, 110, 2, 200, 1, true⟩).leveragedPnL = 0 ∧
    (calculateSpotComparison Chart.linearPriceModifier 1
      ⟨1000, 100, 110, 2, 200, 1, true⟩).isFundingSignificant = true := by
  norm_num [calculateSpotComparison, calculateLiquidationDetails,
    Chart.linearPriceModifier, jsDiv, jsGt]

end SpotCompare

namespace Scenario

/-- Claim C4 counterexample: at day 0 the Exponential Pump `priceModifier`
computes `baseReturn * 0^1.5 / 0^0.5 = 0 / 0 = NaN` (JavaScript), not the
Linear value `baseReturn * 0 = 0`; shown here at `baseReturn = 1`. -/
theorem expPumpPriceModifier_zero_counterexample :
    expPumpPriceModifier 0 1 = JsReal.nan ∧
      expPumpPriceModifier 0 1 ≠ JsReal.num (linearPriceModifierR 0 1) := by
  have h05 : ((0 : ℕ) : ℝ) ^ (0.5 : ℝ) = 0 := by
    rw [Nat.cast_zero]
    exact Real.zero_rpow (by norm_num)
  have h15 : ((0 : ℕ) : ℝ) ^ (1.5 : ℝ) = 0 := by
    rw [Nat.cast_zero]
    exact Real.zero_rpow (by norm_num)
  have hnan : expPumpPriceModifier 0 1 = JsReal.nan := by
    unfold expPumpPriceModifier jsDivR
    rw [h05, h15]
    simp
  refine ⟨hnan, ?_⟩
  rw [hnan]
  intro hcontra
  exact JsReal.noConfusion hcontra

/-- Claim C4 (amended): for every day `d ≥ 1` and every base return `r`, the
Exponential Pump `priceModifier` equals `JsReal.num (r * d)` — the value the
Linear scenario produces — since `d^1.5 / d^0.5 = d` for `d > 0`; at
`d = 0` it instead evaluates to `0 / 0 = NaN`. -/
theorem expPumpPriceModifier_eq_linear (d : ℕ) (r : ℝ) (hd : 1 ≤ d) :
    expPumpPriceModifier d r = JsReal.num (linearPriceModifierR d r) := by
  have hd0 : (0 : ℝ) < (d : ℝ) := by
    have : (1 : ℝ) ≤ (d : ℝ) := by exact_mod_cast hd
    linarith
  have hden : (d : ℝ) ^ (0.5 : ℝ) ≠ 0 :=
    ne_of_gt (Real.rpow_pos_of_pos hd0 _)
  unfold expPumpPriceModifier jsDivR linearPriceModifierR
  rw [if_neg hden]
  congr 1
  rw [mul_div_assoc, ← Real.rpow_sub hd0]
  norm_num

/-- Witness for the amended C4 theorem at `d = 2`, `r = 1`. -/
theorem expPumpPriceModifier_eq_linear_witness :
    expPumpPriceModifier 2 1 = JsReal.num (linearPriceModifierR 2 1) :=
  expPumpPriceModifier_eq_linear 2 1 (by norm_num)

end Scenario
